import Mathlib

/-!
Shallow embedding of the route-visualisation frontend
(`frontend/js/map.js`, `frontend/js/app.js`, `frontend/js/api.js`).

Conventions of the embedding:
* JavaScript numbers are modelled as exact rationals (`ℚ`); the two
  non-numeric values the code can produce — `NaN` (from a failed
  `Number`/`parseFloat` parse) and `undefined` (from destructuring a
  too-short array) — are modelled by the dedicated constructors of `JNum`.
* DOM state read or written by the controller (input fields, status line,
  info panel, the find-route button's `disabled` flag) is carried in an
  explicit `AppState` record; the Leaflet map surface is the `MapState`
  record.  An input field is represented by the number the controller
  reads back from it via `parseFloat`; the code only ever writes numbers
  into these fields, and that write/read round-trip is the identity, so no
  behaviour is lost by storing the parsed value directly.
* Leaflet layers are given fresh numeric identities (`nextId`); a layer
  "on the map" is an entry of `mapLines`/`mapMarkers`, and the module-level
  handles (`routeLayer`, `startMarker`, `endMarker`, `allRouteLayers`)
  store identities, mirroring the object references of the source.
-/

/-- A JavaScript numeric value as it flows through this code base: an exact
rational, `NaN`, or `undefined` (only produced by array destructuring). -/
inductive JNum where
  | num (q : ℚ)
  | nan
  | undef
deriving DecidableEq, Repr

/-- Numeric value of a list of decimal digit characters, most significant
first (the empty list has value 0, as in JavaScript `Number("5.")`). -/
def digitsToNat (l : List Char) : ℕ :=
  l.foldl (fun acc c => acc * 10 + (c.toNat - 48)) 0

/-- Parse an unsigned decimal numeral `digits [ "." digits ]` exactly,
requiring at least one digit overall; models the decimal-literal case of
JavaScript `Number()` (`"5."` and `".5"` are accepted, `"."` is not).
The value is returned as a scaled-integer pair `(n, d)` denoting `n / d`
(all digits concatenated over the power of ten of the fractional length),
so that downstream rational values are built with `Rat.divInt`, which the
kernel can evaluate. -/
def parseUnsignedParts (cs : List Char) : Option (ℕ × ℕ) :=
  let ip := cs.takeWhile Char.isDigit
  let rest := cs.dropWhile Char.isDigit
  match rest with
  | [] => if ip.isEmpty then none else some (digitsToNat ip, 1)
  | '.' :: fp =>
      if fp.all Char.isDigit && (!ip.isEmpty || !fp.isEmpty) then
        some (digitsToNat (ip ++ fp), 10 ^ fp.length)
      else none
  | _ => none

/-- Parse an optionally signed decimal numeral to its rational value. -/
def parseSignedDec (cs : List Char) : Option ℚ :=
  match cs with
  | '-' :: rest => (parseUnsignedParts rest).map (fun p => Rat.divInt (-(p.1 : ℤ)) (p.2 : ℤ))
  | '+' :: rest => (parseUnsignedParts rest).map (fun p => Rat.divInt (p.1 : ℤ) (p.2 : ℤ))
  | _ => (parseUnsignedParts cs).map (fun p => Rat.divInt (p.1 : ℤ) (p.2 : ℤ))

/-- Trim leading and trailing whitespace from a character list (the
whitespace handling of JavaScript `Number()`). -/
def trimChars (cs : List Char) : List Char :=
  ((cs.dropWhile Char.isWhitespace).reverse.dropWhile Char.isWhitespace).reverse

/-- JavaScript `Number(s)` on the fragment of strings this code can feed it
(decimal numerals; the exponent, hexadecimal and `Infinity` forms never
occur in node identifiers): whitespace is trimmed, the empty string is `0`,
a decimal numeral is its value, anything else is `NaN`. -/
def jsNumber (cs : List Char) : JNum :=
  let t := trimChars cs
  if t.isEmpty then .num 0
  else
    match parseSignedDec t with
    | some q => .num q
    | none => .nan

/-- Split a character list at every occurrence of the separator `'_'`,
keeping empty segments, exactly like JavaScript `s.split("_")` (which
yields `[""]` on the empty string and an empty last segment after a
trailing separator).  `acc` holds the current segment reversed. -/
def splitUnderscoreAux : List Char → List Char → List (List Char)
  | [], acc => [acc.reverse]
  | c :: rest, acc =>
      if c = '_' then acc.reverse :: splitUnderscoreAux rest []
      else splitUnderscoreAux rest (c :: acc)

/-- JavaScript `s.split("_")` for a string. -/
def splitUnderscore (s : String) : List (List Char) :=
  splitUnderscoreAux s.toList []

/-- Node-identifier decoding exactly as `drawRoute` performs it
(`map.js` lines 33–36): `node_id.split("_").map(Number)` followed by
destructuring `[lat, lon]`.  The split never fails, `Number` yields `NaN`
on garbage, and destructuring a short array yields `undefined`, so this
function is total: it always produces a pair of JavaScript values. -/
def decodeNodeId (s : String) : JNum × JNum :=
  let parts := (splitUnderscore s).map jsNumber
  (parts.getD 0 .undef, parts.getD 1 .undef)

/-- Modelled from the spec's words (§6), for comparison with `decodeNodeId`:
"a string of the form `\x7blat\x7d_\x7blon\x7d` where both components parse
as decimal numbers; ... any node identifier not matching it is a
malformed-response failure" — i.e. exactly one separator, both components
decimal numerals, and failure (`none`) otherwise. -/
def decodeNodeIdSpec (s : String) : Option (ℚ × ℚ) :=
  match splitUnderscore s with
  | [a, b] =>
      match parseSignedDec a, parseSignedDec b with
      | some x, some y => some (x, y)
      | _, _ => none
  | _ => none

/-- JavaScript `/` on two numbers, written so that the kernel can evaluate
it on concrete rationals (`Rat.divInt` reduces where `Rat.div` is sealed);
`jsDivide_eq_div` below proves it is exactly division on `ℚ`. -/
def jsDivide (a b : ℚ) : ℚ :=
  Rat.divInt (a.num * (b.den : ℤ)) ((a.den : ℤ) * b.num)

/-- Comparison-based minimum, as Leaflet computes bound corners. -/
def qmin (a b : ℚ) : ℚ := if a ≤ b then a else b

/-- Comparison-based maximum, as Leaflet computes bound corners. -/
def qmax (a b : ℚ) : ℚ := if a ≤ b then b else a

/-- A Leaflet `LatLngBounds` rectangle. -/
structure Bounds where
  minLat : ℚ
  maxLat : ℚ
  minLon : ℚ
  maxLon : ℚ
deriving DecidableEq, Repr

/-- Extend a bounds rectangle to cover one more `[lat, lon]` point. -/
def Bounds.extendPt (b : Bounds) (p : ℚ × ℚ) : Bounds :=
  ⟨qmin b.minLat p.1, qmax b.maxLat p.1, qmin b.minLon p.2, qmax b.maxLon p.2⟩

/-- Membership of a point in a bounds rectangle. -/
def Bounds.covers (b : Bounds) (p : ℚ × ℚ) : Prop :=
  b.minLat ≤ p.1 ∧ p.1 ≤ b.maxLat ∧ b.minLon ≤ p.2 ∧ p.2 ≤ b.maxLon

instance (b : Bounds) (p : ℚ × ℚ) : Decidable (b.covers p) := by
  unfold Bounds.covers; infer_instance

/-- Leaflet `L.latLngBounds(coords)`: the smallest rectangle covering the
given points, `none` when there are no points (an invalid bounds object). -/
def latLngBounds : List (ℚ × ℚ) → Option Bounds
  | [] => none
  | p :: ps => some (ps.foldl Bounds.extendPt ⟨p.1, p.1, p.2, p.2⟩)

/-- Which of the two marker roles a marker plays (`startIcon`/`endIcon`). -/
inductive MarkerKind where
  | start
  | finish
deriving DecidableEq, Repr

/-- A marker currently on the map: its layer identity, role and position. -/
structure Marker where
  id : ℕ
  kind : MarkerKind
  pos : ℚ × ℚ
deriving DecidableEq, Repr

/-- A polyline currently on the map: its layer identity, the `latlngs` it
was created with (possibly `NaN`/`undefined` components when decoded from a
malformed node identifier), and its style options.  The popup text and the
hover handlers of multi-path lines are presentation-only and carry no state
the controller reads back, so they are not part of the record. -/
structure Polyline where
  id : ℕ
  coords : List (JNum × JNum)
  color : String
  weight : ℕ
  opacity : ℚ
  zOffset : ℤ
deriving DecidableEq, Repr

/-- Fallback polyline for safe list indexing in concrete statements. -/
def dummyLine : Polyline := ⟨0, [], "", 0, 0, 0⟩

/-- The module-level state of `map.js`: the fresh-identity counter, the
handle variables `routeLayer`/`startMarker`/`endMarker`/`allRouteLayers`,
the layers actually on the map, and the last bounds the viewport was fitted
to (`map.fitBounds`). -/
structure MapState where
  nextId : ℕ
  routeLayer : Option ℕ
  startMarker : Option ℕ
  endMarker : Option ℕ
  allRouteLayers : List ℕ
  mapLines : List Polyline
  mapMarkers : List Marker
  fitted : Option Bounds
deriving DecidableEq, Repr

/-- The state at module load: all handles null, nothing on the map. -/
def initMapState : MapState := ⟨0, none, none, none, [], [], [], none⟩

/-- Model of `map.removeLayer(line)`: take one polyline off the map. -/
def removeLayerLine (s : MapState) (i : ℕ) : MapState :=
  { s with mapLines := s.mapLines.filter (fun l => l.id ≠ i) }

/-- Model of `clearAllRoutes()` (`map.js` lines 131–143): remove every layer listed
in `allRouteLayers` and reset the list, then remove the single `routeLayer`
if present and null its handle.  Markers are untouched. -/
def clearAllRoutes (s : MapState) : MapState :=
  let s1 := s.allRouteLayers.foldl removeLayerLine s
  let s2 := { s1 with allRouteLayers := [] }
  match s2.routeLayer with
  | some i => { removeLayerLine s2 i with routeLayer := none }
  | none => s2

/-- First half of `addMarkers` (`map.js` lines 119–120): remove the marker
each handle refers to, when the handle is non-null. -/
def removeOldMarkers (s : MapState) : MapState :=
  let s1 :=
    match s.startMarker with
    | some i => { s with mapMarkers := s.mapMarkers.filter (fun m => m.id ≠ i) }
    | none => s
  match s1.endMarker with
  | some i => { s1 with mapMarkers := s1.mapMarkers.filter (fun m => m.id ≠ i) }
  | none => s1

/-- Second half of `addMarkers` (`map.js` lines 122–125): place a fresh
start marker and a fresh end marker and store them in the handles. -/
def placeMarkers (s : MapState) (sc ec : ℚ × ℚ) : MapState :=
  { s with
    mapMarkers := s.mapMarkers ++ [⟨s.nextId, .start, sc⟩, ⟨s.nextId + 1, .finish, ec⟩],
    startMarker := some s.nextId,
    endMarker := some (s.nextId + 1),
    nextId := s.nextId + 2 }

/-- Model of `addMarkers(startCoord, endCoord)` (`map.js` lines 118–126). -/
def addMarkers (s : MapState) (sc ec : ℚ × ℚ) : MapState :=
  placeMarkers (removeOldMarkers s) sc ec

/-- The polyline-creation step of `drawRoute` (`map.js` lines 33–43):
decode every node identifier and put one polyline with the fixed
single-route style on the map, storing it in `routeLayer`. -/
def drawRoutePolylineStep (s : MapState) (path : List String) : MapState :=
  { s with
    mapLines := s.mapLines ++
      [⟨s.nextId, path.map decodeNodeId, "#667eea", 5, mkRat 7 10, 0⟩],
    routeLayer := some s.nextId,
    nextId := s.nextId + 1 }

/-- The numeric coordinate pairs of a decoded latlng list (both components
actual numbers). -/
def numCoords (l : List (JNum × JNum)) : List (ℚ × ℚ) :=
  l.filterMap (fun pq =>
    match pq with
    | (.num a, .num b) => some (a, b)
    | _ => none)

/-- The viewport step of `drawRoute` (`map.js` line 47):
`map.fitBounds(routeLayer.getBounds(), ...)`.  The bounds of the numeric
coordinates of the drawn line become the fitted viewport; a line with no
numeric coordinate has no valid bounds (Leaflet errors out there — no claim
depends on that corner, and the model keeps the previous fit). -/
def routeFitStep (s : MapState) (path : List String) : MapState :=
  { s with
    fitted :=
      match latLngBounds (numCoords (path.map decodeNodeId)) with
      | some b => some b
      | none => s.fitted }

/-- Model of `drawRoute(path, startCoord, endCoord)` (`map.js` lines 29–48):
clear all routes, draw the polyline, swap the markers, fit the viewport
— in that order. -/
def drawRoute (s : MapState) (path : List String) (sc ec : ℚ × ℚ) : MapState :=
  routeFitStep (addMarkers (drawRoutePolylineStep (clearAllRoutes s) path) sc ec) path

/-- One entry of a DFS response's `all_paths_data`
(`coordinates`, `distance_km`, `nodes`). -/
structure PathData where
  coordinates : List (ℚ × ℚ)
  distance_km : ℚ
  nodes : ℕ
deriving DecidableEq, Repr

/-- The fixed ten-colour palette of `drawMultiplePaths`
(`map.js` lines 55–66). -/
def colors : List String :=
  ["#667eea", "#10b981", "#f59e0b", "#ef4444", "#8b5cf6",
   "#ec4899", "#06b6d4", "#84cc16", "#f97316", "#6366f1"]

/-- The polyline built for entry `idx` of a `pathsData` of length `n`
with fresh identity `nid` (`map.js` lines 69–80): colour cycled by index,
the first path heavier and more opaque, descending stacking offset. -/
def multiPathLayer (n idx nid : ℕ) (pd : PathData) : Polyline :=
  { id := nid,
    coords := pd.coordinates.map (fun p => (JNum.num p.1, JNum.num p.2)),
    color := colors.getD (idx % colors.length) "",
    weight := if idx = 0 then 6 else 4,
    opacity := if idx = 0 then mkRat 9 10 else mkRat 6 10,
    zOffset := ((n : ℤ) - (idx : ℤ)) * 10 }

/-- The `forEach` of `drawMultiplePaths`: add one layer per path record,
pushing each onto `allRouteLayers`. -/
def addPaths (n : ℕ) : MapState → ℕ → List PathData → MapState
  | s, _, [] => s
  | s, idx, pd :: rest =>
      let layer := multiPathLayer n idx s.nextId pd
      addPaths n
        { s with
          mapLines := s.mapLines ++ [layer],
          allRouteLayers := s.allRouteLayers ++ [layer.id],
          nextId := s.nextId + 1 }
        (idx + 1) rest

/-- Pure description of the layers `addPaths` creates, for reasoning:
consecutive indices from `idx` and consecutive identities from `nid`. -/
def pathLayers (n idx nid : ℕ) : List PathData → List Polyline
  | [] => []
  | pd :: rest => multiPathLayer n idx nid pd :: pathLayers n (idx + 1) (nid + 1) rest

/-- Model of `drawMultiplePaths(pathsData, startCoord, endCoord)`
(`map.js` lines 50–115): clear all routes, draw one styled line per path
record, swap the markers, and fit the viewport to the union of all path
coordinates when there are any. -/
def drawMultiplePaths (s : MapState) (pathsData : List PathData) (sc ec : ℚ × ℚ) : MapState :=
  let s2 := addPaths pathsData.length (clearAllRoutes s) 0 pathsData
  let s3 := addMarkers s2 sc ec
  match latLngBounds (pathsData.flatMap (fun pd => pd.coordinates)) with
  | some b => { s3 with fitted := some b }
  | none => s3

/-- Model of `clearMap()` (`map.js` lines 148–159): clear all routes, then remove
both markers and null their handles. -/
def clearMap (s : MapState) : MapState :=
  let s1 := clearAllRoutes s
  let s2 :=
    match s1.startMarker with
    | some i =>
        { s1 with mapMarkers := s1.mapMarkers.filter (fun m => m.id ≠ i), startMarker := none }
    | none => s1
  match s2.endMarker with
  | some i =>
      { s2 with mapMarkers := s2.mapMarkers.filter (fun m => m.id ≠ i), endMarker := none }
  | none => s2

/-- One map-surface operation, for reasoning about arbitrary sequences of
renders and clears. -/
inductive MapOp where
  | route (path : List String) (sc ec : ℚ × ℚ)
  | multi (pathsData : List PathData) (sc ec : ℚ × ℚ)
  | clear
deriving DecidableEq, Repr

/-- Apply one map-surface operation. -/
def applyMapOp (s : MapState) : MapOp → MapState
  | .route path sc ec => drawRoute s path sc ec
  | .multi pd sc ec => drawMultiplePaths s pd sc ec
  | .clear => clearMap s

/-- Run a sequence of map-surface operations. -/
def runMapOps (s : MapState) (ops : List MapOp) : MapState :=
  ops.foldl applyMapOp s

/-- The identities of the markers of one kind currently on the map. -/
def markerIdsOfKind (s : MapState) (k : MarkerKind) : List ℕ :=
  (s.mapMarkers.filter (fun m => m.kind = k)).map (fun m => m.id)

/-- The identity list a handle accounts for. -/
def handleIds : Option ℕ → List ℕ
  | some i => [i]
  | none => []

/-- Well-formedness of the map-surface state, maintained by every
operation the code performs: the handles account exactly for the markers
on the map, every line on the map is reachable from `allRouteLayers` or
`routeLayer` (nothing leaks), and all identities are below the fresh
counter. -/
def MapInv (s : MapState) : Prop :=
  markerIdsOfKind s .start = handleIds s.startMarker ∧
  markerIdsOfKind s .finish = handleIds s.endMarker ∧
  (∀ l ∈ s.mapLines, l.id ∈ s.allRouteLayers ∨ s.routeLayer = some l.id) ∧
  (∀ l ∈ s.mapLines, l.id < s.nextId) ∧
  (∀ m ∈ s.mapMarkers, m.id < s.nextId)

instance (s : MapState) : Decidable (MapInv s) := by
  unfold MapInv; infer_instance

/-- A route response body as the controller consumes it (`api.js` returns
the parsed JSON with the measured `computeTime` string attached).  Absent
JSON fields are `none`. -/
structure RouteData where
  path : Option (List String)
  paths : Option (List (List String))
  all_paths_data : Option (List PathData)
  distance_km : Option ℚ
  distance : Option ℚ
  computeTime : String
deriving DecidableEq, Repr

/-- A `findRoute` execution suspended at `await getRoute(...)`: the
algorithm and coordinates it captured before suspending. -/
structure PendingReq where
  algorithm : String
  lat1 : ℚ
  lon1 : ℚ
  lat2 : ℚ
  lon2 : ℚ
deriving DecidableEq, Repr

/-- How an awaited `getRoute` call comes back: a parsed body (or `null`),
or a thrown error carrying its message (transport failure / non-ok status,
which `api.js` rethrows). -/
inductive ReqOutcome where
  | success (data : Option RouteData)
  | failure (msg : String)
deriving DecidableEq, Repr

/-- The page state `app.js` manipulates: the click-mode flag, the four
coordinate input fields (represented by the number `parseFloat` reads back
from them — the code only ever writes numbers into them, and that
write/read round-trip is the identity), the selected algorithm, the status
line, the info panel with its four text spans, the find-route button's
`disabled` flag, the map surface, and the queue of suspended `findRoute`
executions awaiting their response. -/
structure AppState where
  clickMode : String
  startLat : JNum
  startLon : JNum
  endLat : JNum
  endLon : JNum
  algorithmSel : String
  statusMsg : String
  statusType : String
  infoPanelShown : Bool
  btnDisabled : Bool
  distanceText : String
  nodesText : String
  timeText : String
  algoText : String
  map : MapState
  pending : List PendingReq
deriving DecidableEq, Repr

/-- The page state after load: `clickMode = 'start'`, empty inputs
(`parseFloat("")` is `NaN`), button enabled, nothing in flight. -/
def initAppState : AppState :=
  { clickMode := "start"
    startLat := .nan, startLon := .nan, endLat := .nan, endLon := .nan
    algorithmSel := "dijkstra"
    statusMsg := "", statusType := "info"
    infoPanelShown := false
    btnDisabled := false
    distanceText := "", nodesText := "", timeText := "", algoText := ""
    map := initMapState
    pending := [] }

/-- Model of `setStatus(message, type)` (`app.js` lines 21–24). -/
def setStatus (a : AppState) (msg ty : String) : AppState :=
  { a with statusMsg := msg, statusType := ty }

/-- Model of `showLoading()` (`app.js` lines 26–29): disable the find-route button
and show the loading status. -/
def showLoading (a : AppState) : AppState :=
  setStatus { a with btnDisabled := true }
    "Зам тооцоолж байна... <span class=\"loading\"></span>" "loading"

/-- Model of `hideLoading()` (`app.js` lines 32–34): re-enable the find-route
button. -/
def hideLoading (a : AppState) : AppState :=
  { a with btnDisabled := false }

/-- Decimal rounding of `|q| * 100` to the nearest integer, half away from
zero, in pure natural arithmetic (`q.den` is always positive). -/
def hundredths (q : ℚ) : ℕ :=
  (200 * q.num.natAbs + q.den) / (2 * q.den)

/-- Model of `x.toFixed(2)` as exact decimal rounding (half away from zero on the
magnitude); the rational model has no binary-double representation
artifacts, and every value the claims evaluate is exact. -/
def formatFixed2 (q : ℚ) : String :=
  let n := hundredths q
  let sgn := if q.num < 0 then "-" else ""
  let fp := n % 100
  sgn ++ toString (n / 100) ++ "." ++
    (if fp < 10 then "0" ++ toString fp else toString fp)

/-- The four decimal digit characters of `fp < 10000`, most significant
first. -/
def natDigits4 (fp : ℕ) : List Char :=
  [Char.ofNat (48 + fp / 1000 % 10), Char.ofNat (48 + fp / 100 % 10),
   Char.ofNat (48 + fp / 10 % 10), Char.ofNat (48 + fp % 10)]

/-- Drop trailing `'0'` characters. -/
def trimTrailingZeros (cs : List Char) : List Char :=
  (cs.reverse.dropWhile (fun c => c = '0')).reverse

/-- JavaScript number-to-string conversion for the values the click
handler interpolates into status messages: the handler receives
coordinates rounded to at most four decimal places, and JS prints them
with trailing zeros trimmed (`String(47.9210)` is `"47.921"`). -/
def decimalString (q : ℚ) : String :=
  let sgn := if q.num < 0 then "-" else ""
  let n := (q.num.natAbs * 10000) / q.den
  let ip := n / 10000
  let fp := n % 10000
  if fp = 0 then sgn ++ toString ip
  else sgn ++ toString ip ++ "." ++ String.mk (trimTrailingZeros (natDigits4 fp))

/-- The `algoNames[algorithm] || algorithm` display-name lookup
(`app.js` lines 59–64). -/
def algoDisplayName (algorithm : String) : String :=
  if algorithm = "dijkstra" then "Dijkstra"
  else if algorithm = "bfs" then "BFS"
  else if algorithm = "dfs" then "DFS"
  else algorithm

/-- Model of `updateInfoPanel(data, algorithm)` (`app.js` lines 37–68): distance in
kilometres (`distance_km` as-is, else `distance / 1000`, else unknown),
node count (`path.length`, else `paths[0].length` when `paths` is
non-empty, else 0), compute time, display name; then show the panel. -/
def updateInfoPanel (a : AppState) (data : RouteData) (algorithm : String) : AppState :=
  let a1 :=
    match data.distance_km with
    | some q => { a with distanceText := formatFixed2 q ++ " км" }
    | none =>
        match data.distance with
        | some m => { a with distanceText := formatFixed2 (jsDivide m 1000) ++ " км" }
        | none => { a with distanceText := "Тодорхойгүй" }
  let a2 :=
    match data.path with
    | some p => { a1 with nodesText := toString p.length }
    | none =>
        match data.paths with
        | some ps =>
            if 0 < ps.length then { a1 with nodesText := toString (ps.headD []).length }
            else { a1 with nodesText := "0" }
        | none => { a1 with nodesText := "0" }
  { a2 with
    timeText := data.computeTime ++ "с",
    algoText := algoDisplayName algorithm,
    infoPanelShown := true }

/-- Model of `clearAll()` (`app.js` lines 71–75): clear the map, hide the info
panel, reset the status line. -/
def clearAll (a : AppState) : AppState :=
  let a1 := { a with map := clearMap a.map }
  setStatus { a1 with infoPanelShown := false } "Газрын зураг цэвэрлэгдсэн" "info"

/-- The `onMapClick` callback (`app.js` lines 159–173), invoked with the
coordinates already rounded to four decimal places by the map surface:
while `clickMode` is `'start'` the click populates the start fields and
flips to `'end'`; otherwise it populates the end fields and flips back.
The transient feedback marker (`showTemporaryMarker`) removes itself after
a fixed delay and is referenced by no other state, so it is not modelled. -/
def handleMapClick (a : AppState) (lat lon : ℚ) : AppState :=
  if a.clickMode = "start" then
    { setStatus a
        ("✅ Эхлэх цэг: " ++ decimalString lat ++ ", " ++ decimalString lon ++
          " - Одоо төгсгөлийн цэгийг сонгоно уу") "success" with
      startLat := .num lat, startLon := .num lon, clickMode := "end" }
  else
    { setStatus a
        ("✅ Төгсгөлийн цэг: " ++ decimalString lat ++ ", " ++ decimalString lon ++
          " - \"Зам тооцоолох\" товчийг дарна уу") "success" with
      endLat := .num lat, endLon := .num lon, clickMode := "start" }

/-- The synchronous prefix of `findRoute()` (`app.js` lines 78–96): read
and validate the four coordinate inputs; on failure report a validation
error and do nothing else; on success disable the button, show the loading
status, and suspend at `await getRoute(...)` — modelled by appending the
captured request to the `pending` queue. -/
def startFindRoute (a : AppState) : AppState :=
  match a.startLat, a.startLon, a.endLat, a.endLon with
  | .num lat1, .num lon1, .num lat2, .num lon2 =>
      let a1 := showLoading a
      { a1 with pending := a1.pending ++ [⟨a.algorithmSel, lat1, lon1, lat2, lon2⟩] }
  | _, _, _, _ => setStatus a "❌ Координат зөв оруулна уу!" "error"

/-- The response-handling suffix of `findRoute()` (`app.js` lines 98–145)
for a resolved `getRoute` call: `null` body, DFS empty/multi/single
dispatch, BFS/Dijkstra empty/success dispatch, drawing and info-panel
update; the `finally` re-enable is applied by `settleReq`. -/
def respondCore (a : AppState) (r : PendingReq) (data : Option RouteData) : AppState :=
  match data with
  | none => setStatus a "❌ API-аас хариу ирсэнгүй" "error"
  | some d =>
      if r.algorithm = "dfs" then
        match d.paths with
        | none => setStatus a "⚠️ Зам олдсонгүй" "error"
        | some ps =>
            if ps.length = 0 then setStatus a "⚠️ Зам олдсонгүй" "error"
            else
              let apd := d.all_paths_data.getD []
              if 1 < apd.length then
                let a1 := { a with
                  map := drawMultiplePaths a.map apd (r.lat1, r.lon1) (r.lat2, r.lon2) }
                let a2 := setStatus a1
                  ("✅ DFS: " ++ toString apd.length ++ " өөр зам харуулж байна") "success"
                hideLoading (updateInfoPanel a2 d "dfs")
              else
                let a1 := { a with
                  map := drawRoute a.map (ps.headD []) (r.lat1, r.lon1) (r.lat2, r.lon2) }
                let a2 := setStatus a1 "✅ DFS: 1 зам олдлоо" "success"
                hideLoading (updateInfoPanel a2 d "dfs")
      else if r.algorithm = "bfs" ∨ r.algorithm = "dijkstra" then
        match d.path with
        | none => setStatus a "⚠️ Зам олдсонгүй" "error"
        | some p =>
            if p.length = 0 then setStatus a "⚠️ Зам олдсонгүй" "error"
            else
              let algoName := if r.algorithm = "bfs" then "BFS" else "Dijkstra"
              let a1 := setStatus a ("✅ " ++ algoName ++ ": Зам амжилттай олдлоо!") "success"
              let a2 := { a1 with
                map := drawRoute a1.map p (r.lat1, r.lon1) (r.lat2, r.lon2) }
              updateInfoPanel a2 d r.algorithm
      else a

/-- Settle one suspended `findRoute`: run the `catch` branch on a thrown
error or the response-handling suffix on a body, then the `finally` branch
(`hideLoading`) unconditionally (`app.js` lines 147–152). -/
def settleReq (a : AppState) (r : PendingReq) (o : ReqOutcome) : AppState :=
  let a1 :=
    match o with
    | .failure msg => setStatus a ("❌ Алдаа: " ++ msg) "error"
    | .success data => respondCore a r data
  hideLoading a1

/-- One user-interface event: an accepted map click (coordinates already
rounded by the map surface), a click on the find-route button, an Enter
keypress anywhere on the document, a click on the clear button, or the
oldest in-flight request settling with an outcome. -/
inductive UiEvent where
  | mapClick (lat lon : ℚ)
  | findClick
  | enterKey
  | clearClick
  | settle (o : ReqOutcome)
deriving DecidableEq, Repr

/-- The event dispatch of `app.js`: a disabled button emits no click
(browser semantics for `disabled`), so `findClick` is a no-op while
`btnDisabled`; the document-level Enter listener (lines 176–180) calls
`findRoute()` with no such gate; settling resolves the oldest suspended
execution. -/
def stepApp (a : AppState) : UiEvent → AppState
  | .mapClick lat lon => handleMapClick a lat lon
  | .findClick => if a.btnDisabled then a else startFindRoute a
  | .enterKey => startFindRoute a
  | .clearClick => clearAll a
  | .settle o =>
      match a.pending with
      | [] => a
      | r :: rest => settleReq { a with pending := rest } r o

/-- Run a sequence of user-interface events. -/
def runEvents (a : AppState) (evs : List UiEvent) : AppState :=
  evs.foldl stepApp a

/-- A map click event from a coordinate pair. -/
def clickEv (p : ℚ × ℚ) : UiEvent := .mapClick p.1 p.2

/-- Fallback path record for safe list indexing in concrete statements. -/
def dummyPathData : PathData := ⟨[], 0, 0⟩

/-- A one-point path record used in concrete statements. -/
def pdProbe : PathData := ⟨[(1, 1)], 1, 1⟩

/-- Eleven path records — one more than the colour palette has entries. -/
def pds11 : List PathData := List.replicate 11 pdProbe

/-- A map state holding one completed single-route render (one line with
identity 0, a start marker with identity 1 and an end marker with
identity 2). -/
def renderedOnce : MapState :=
  drawRoute initMapState ["47.9210_106.9270", "47.9220_106.9280"]
    (Rat.divInt 4792 100, Rat.divInt 10692 100) (Rat.divInt 4793 100, Rat.divInt 10693 100)

/-- The spec's §8 dijkstra scenario request: from `(47.92, 106.92)` to
`(47.93, 106.93)`. -/
def c7Req : PendingReq :=
  ⟨"dijkstra", Rat.divInt 4792 100, Rat.divInt 10692 100,
   Rat.divInt 4793 100, Rat.divInt 10693 100⟩

/-- The spec's §8 dijkstra scenario reply: a path of two node identifiers
and `distance: 1000` (metres). -/
def c7Data : RouteData :=
  { path := some ["47.9200_106.9200", "47.9300_106.9300"],
    paths := none, all_paths_data := none,
    distance_km := none, distance := some 1000, computeTime := "0.123" }

/-- A DFS-shaped response with no `path` field and two discovered paths of
different lengths (2 and 3 nodes). -/
def c10Data : RouteData :=
  { path := none,
    paths := some [["1_1", "2_2"], ["1_1", "3_3", "2_2"]],
    all_paths_data := some [⟨[(1, 1), (2, 2)], 1, 2⟩, ⟨[(1, 1), (3, 3), (2, 2)], 2, 3⟩],
    distance_km := some 1, distance := none, computeTime := "0.1" }

/-- The in-flight bookkeeping invariant of the controller: at most one
suspended `findRoute`, and the find-route button is disabled while one is
suspended. -/
def FlightInv (a : AppState) : Prop :=
  a.pending.length ≤ 1 ∧ (a.pending ≠ [] → a.btnDisabled = true)

/-! Helper lemmas about the map surface. -/

/-- Sanity check tying `jsDivide` to division on `ℚ`. -/
theorem jsDivide_eq_div (a b : ℚ) : jsDivide a b = a / b := by
  rcases eq_or_ne b 0 with rfl | hb
  · simp [jsDivide]
  · have had : ((a.den : ℚ)) ≠ 0 := Nat.cast_ne_zero.mpr a.den_nz
    have hbd : ((b.den : ℚ)) ≠ 0 := Nat.cast_ne_zero.mpr b.den_nz
    have hbn : ((b.num : ℚ)) ≠ 0 := by
      exact_mod_cast Rat.num_ne_zero.mpr hb
    have e1 : (a.num : ℚ) = a * a.den := (div_eq_iff had).mp (Rat.num_div_den a)
    have e2 : (b.num : ℚ) = b * b.den := (div_eq_iff hbd).mp (Rat.num_div_den b)
    rw [jsDivide, Rat.divInt_eq_div]
    push_cast
    rw [div_eq_div_iff (mul_ne_zero had hbn) hb]
    rw [e1, e2]; ring

/-- The fold of `removeLayerLine` over a list of identities only filters
`mapLines`. -/
theorem foldl_removeLayerLine_eq (ids : List ℕ) (s : MapState) :
    ids.foldl removeLayerLine s =
      { s with
        mapLines := ids.foldl (fun ls i => ls.filter (fun l => l.id ≠ i)) s.mapLines } := by
  induction ids generalizing s with
  | nil => rfl
  | cons i ids ih => simp [List.foldl_cons, removeLayerLine, ih]

/-- Membership after repeatedly filtering out identities. -/
theorem mem_foldl_filter_lines :
    ∀ (ids : List ℕ) (ls : List Polyline) (l : Polyline),
      l ∈ ids.foldl (fun ls i => ls.filter (fun l => l.id ≠ i)) ls →
      l ∈ ls ∧ l.id ∉ ids := by
  intro ids
  induction ids with
  | nil => intro ls l h; simpa using h
  | cons i ids ih =>
      intro ls l h
      simp only [List.foldl_cons] at h
      obtain ⟨h1, h2⟩ := ih _ _ h
      rw [List.mem_filter] at h1
      refine ⟨h1.1, ?_⟩
      intro hmem
      rcases List.mem_cons.mp hmem with rfl | hmem'
      · exact (by simpa using h1.2 : l.id ≠ l.id) rfl
      · exact h2 hmem'

/-- Under the invariant, `clearAllRoutes` empties the map of lines and
resets both line handles; markers are untouched. -/
theorem clearAllRoutes_eq {s : MapState} (h : MapInv s) :
    clearAllRoutes s =
      { s with mapLines := [], allRouteLayers := [], routeLayer := none } := by
  obtain ⟨-, -, htrack, -, -⟩ := h
  obtain ⟨nid, rl, sm, em, arl, ml, mm, f⟩ := s
  unfold clearAllRoutes
  rw [foldl_removeLayerLine_eq]
  simp only [removeLayerLine] at htrack ⊢
  cases rl with
  | none =>
      dsimp only
      congr 1
      refine List.eq_nil_iff_forall_not_mem.mpr (fun l hl => ?_)
      obtain ⟨hmem, hnot⟩ := mem_foldl_filter_lines _ _ _ hl
      rcases htrack l hmem with hin | hnone
      · exact hnot hin
      · exact Option.noConfusion hnone
  | some i =>
      dsimp only
      congr 1
      refine List.eq_nil_iff_forall_not_mem.mpr (fun l hl => ?_)
      rw [List.mem_filter] at hl
      obtain ⟨hmem, hnot⟩ := mem_foldl_filter_lines _ _ _ hl.1
      rcases htrack l hmem with hin | hsome
      · exact hnot hin
      · have hli : l.id = i := by injection hsome with hji; exact hji.symm
        exact (by simpa using hl.2 : l.id ≠ i) hli

/-- A marker on the map contributes its identity to its kind's list. -/
theorem marker_id_mem {s : MapState} {m : Marker} (hm : m ∈ s.mapMarkers) :
    m.id ∈ markerIdsOfKind s m.kind := by
  unfold markerIdsOfKind
  exact List.mem_map_of_mem _ (List.mem_filter.mpr ⟨hm, by simp⟩)

/-- Under the invariant, removing the handle-referenced markers removes
every marker (the two kinds are exhaustive and the handles account for all
of them). -/
theorem removeOldMarkers_eq {s : MapState} (h : MapInv s) :
    removeOldMarkers s = { s with mapMarkers := [] } := by
  obtain ⟨hstart, hfin, -, -, -⟩ := h
  have key : ∀ m ∈ s.mapMarkers,
      (∃ i, s.startMarker = some i ∧ m.kind = .start ∧ m.id = i) ∨
      (∃ j, s.endMarker = some j ∧ m.kind = .finish ∧ m.id = j) := by
    intro m hm
    have hmem := marker_id_mem hm
    cases hk : m.kind with
    | start =>
        rw [hk, hstart] at hmem
        cases hS : s.startMarker with
        | none => rw [hS] at hmem; exact absurd hmem (by simp [handleIds])
        | some i =>
            rw [hS] at hmem
            exact Or.inl ⟨i, rfl, rfl, by simpa [handleIds] using hmem⟩
    | finish =>
        rw [hk, hfin] at hmem
        cases hE : s.endMarker with
        | none => rw [hE] at hmem; exact absurd hmem (by simp [handleIds])
        | some j =>
            rw [hE] at hmem
            exact Or.inr ⟨j, rfl, rfl, by simpa [handleIds] using hmem⟩
  obtain ⟨nid, rl, sm, em, arl, ml, mm, f⟩ := s
  unfold removeOldMarkers
  dsimp only at key ⊢
  cases sm with
  | none =>
      cases em with
      | none =>
          dsimp only
          congr 1
          refine List.eq_nil_iff_forall_not_mem.mpr (fun m hm => ?_)
          rcases key m hm with ⟨i, hi, -, -⟩ | ⟨j, hj, -, -⟩
          · exact Option.noConfusion hi
          · exact Option.noConfusion hj
      | some j =>
          dsimp only
          congr 1
          refine List.eq_nil_iff_forall_not_mem.mpr (fun m hm => ?_)
          rw [List.mem_filter] at hm
          rcases key m hm.1 with ⟨i, hi, -, -⟩ | ⟨j', hj, -, hmj⟩
          · exact Option.noConfusion hi
          · have hjj : j = j' := by injection hj
            exact (by simpa using hm.2 : m.id ≠ j) (hjj ▸ hmj)
  | some i =>
      cases em with
      | none =>
          dsimp only
          congr 1
          refine List.eq_nil_iff_forall_not_mem.mpr (fun m hm => ?_)
          rw [List.mem_filter] at hm
          rcases key m hm.1 with ⟨i', hi, -, hmi⟩ | ⟨j, hj, -, -⟩
          · have hii : i = i' := by injection hi
            exact (by simpa using hm.2 : m.id ≠ i) (hii ▸ hmi)
          · exact Option.noConfusion hj
      | some j =>
          dsimp only
          congr 1
          refine List.eq_nil_iff_forall_not_mem.mpr (fun m hm => ?_)
          rw [List.mem_filter, List.mem_filter] at hm
          rcases key m hm.1.1 with ⟨i', hi, -, hmi⟩ | ⟨j', hj, -, hmj⟩
          · have hii : i = i' := by injection hi
            exact (by simpa using hm.1.2 : m.id ≠ i) (hii ▸ hmi)
          · have hjj : j = j' := by injection hj
            exact (by simpa using hm.2 : m.id ≠ j) (hjj ▸ hmj)

/-- Under the invariant, `addMarkers` leaves exactly the two fresh markers
on the map and repoints both handles at them. -/
theorem addMarkers_eq {s : MapState} (h : MapInv s) (sc ec : ℚ × ℚ) :
    addMarkers s sc ec =
      { s with
        mapMarkers := [⟨s.nextId, .start, sc⟩, ⟨s.nextId + 1, .finish, ec⟩],
        startMarker := some s.nextId,
        endMarker := some (s.nextId + 1),
        nextId := s.nextId + 2 } := by
  rw [addMarkers, removeOldMarkers_eq h]
  rfl

/-- Closed form of a full `drawRoute` call from any invariant state: one
fresh line, two fresh markers, all previous route layers and markers gone. -/
theorem drawRoute_eq {s : MapState} (h : MapInv s) (path : List String) (sc ec : ℚ × ℚ) :
    drawRoute s path sc ec =
      { s with
        mapLines := [⟨s.nextId, path.map decodeNodeId, "#667eea", 5, mkRat 7 10, 0⟩],
        routeLayer := some s.nextId,
        allRouteLayers := [],
        mapMarkers := [⟨s.nextId + 1, .start, sc⟩, ⟨s.nextId + 2, .finish, ec⟩],
        startMarker := some (s.nextId + 1),
        endMarker := some (s.nextId + 2),
        nextId := s.nextId + 3,
        fitted :=
          match latLngBounds (numCoords (path.map decodeNodeId)) with
          | some b => some b
          | none => s.fitted } := by
  have hstart := h.1
  have hfin := h.2.1
  have hmfresh := h.2.2.2.2
  unfold drawRoute
  rw [clearAllRoutes_eq h]
  have estep :
      drawRoutePolylineStep
        { s with mapLines := [], allRouteLayers := [], routeLayer := none } path =
      { s with
        mapLines := [⟨s.nextId, path.map decodeNodeId, "#667eea", 5, mkRat 7 10, 0⟩],
        allRouteLayers := [],
        routeLayer := some s.nextId,
        nextId := s.nextId + 1 } := rfl
  rw [estep]
  have h2 : MapInv
      { s with
        mapLines := [⟨s.nextId, path.map decodeNodeId, "#667eea", 5, mkRat 7 10, 0⟩],
        allRouteLayers := [],
        routeLayer := some s.nextId,
        nextId := s.nextId + 1 } := by
    refine ⟨?_, ?_, ?_, ?_, ?_⟩
    · exact hstart
    · exact hfin
    · intro l hl
      simp only [List.mem_singleton] at hl
      subst hl
      exact Or.inr rfl
    · intro l hl
      simp only [List.mem_singleton] at hl
      subst hl
      exact Nat.lt_succ_self _
    · intro m hm
      exact Nat.lt_succ_of_lt (hmfresh m hm)
  rw [addMarkers_eq h2]
  rfl

/-- Fact: `pathLayers` produces one layer per path record. -/
theorem pathLayers_length (n : ℕ) :
    ∀ (pds : List PathData) (idx nid : ℕ), (pathLayers n idx nid pds).length = pds.length := by
  intro pds
  induction pds with
  | nil => intro idx nid; rfl
  | cons pd rest ih => intro idx nid; simp [pathLayers, ih]

/-- The layer at position `j` of `pathLayers`. -/
theorem pathLayers_getD (n : ℕ) :
    ∀ (pds : List PathData) (idx nid j : ℕ), j < pds.length →
      (pathLayers n idx nid pds).getD j dummyLine =
        multiPathLayer n (idx + j) (nid + j) (pds.getD j dummyPathData) := by
  intro pds
  induction pds with
  | nil => intro idx nid j hj; simp at hj
  | cons pd rest ih =>
      intro idx nid j hj
      cases j with
      | zero => rfl
      | succ j =>
          have hr : j < rest.length := by simpa using hj
          have := ih (idx + 1) (nid + 1) j hr
          simpa [pathLayers, Nat.add_assoc, Nat.add_comm 1 j] using this

/-- Identity range of the layers `pathLayers` produces. -/
theorem pathLayers_id_range (n : ℕ) :
    ∀ (pds : List PathData) (idx nid : ℕ), ∀ l ∈ pathLayers n idx nid pds,
      nid ≤ l.id ∧ l.id < nid + pds.length := by
  intro pds
  induction pds with
  | nil => intro idx nid l hl; simp [pathLayers] at hl
  | cons pd rest ih =>
      intro idx nid l hl
      rcases List.mem_cons.mp hl with rfl | hl'
      · exact ⟨Nat.le_refl _, by simp [multiPathLayer]⟩
      · have := ih (idx + 1) (nid + 1) l hl'
        simp only [List.length_cons]
        omega

/-- Closed form of the `forEach` loop of `drawMultiplePaths`. -/
theorem addPaths_eq (n : ℕ) :
    ∀ (pds : List PathData) (s : MapState) (idx : ℕ),
      addPaths n s idx pds =
        { s with
          mapLines := s.mapLines ++ pathLayers n idx s.nextId pds,
          allRouteLayers :=
            s.allRouteLayers ++ (pathLayers n idx s.nextId pds).map (fun l => l.id),
          nextId := s.nextId + pds.length } := by
  intro pds
  induction pds with
  | nil => intro s idx; simp [addPaths, pathLayers]
  | cons pd rest ih =>
      intro s idx
      rw [addPaths, ih]
      simp only [pathLayers, List.map_cons]
      congr 1 <;> first
        | rfl
        | (simp only [List.length_cons]; omega)
        | simp [List.append_assoc]

/-- Closed form of a full `drawMultiplePaths` call from any invariant
state: one fresh layer per path record, two fresh markers, all previous
route layers and markers gone, viewport fitted to all path coordinates. -/
theorem drawMultiplePaths_eq {s : MapState} (h : MapInv s) (pds : List PathData)
    (sc ec : ℚ × ℚ) :
    drawMultiplePaths s pds sc ec =
      { s with
        mapLines := pathLayers pds.length 0 s.nextId pds,
        allRouteLayers := (pathLayers pds.length 0 s.nextId pds).map (fun l => l.id),
        routeLayer := none,
        mapMarkers :=
          [⟨s.nextId + pds.length, .start, sc⟩, ⟨s.nextId + pds.length + 1, .finish, ec⟩],
        startMarker := some (s.nextId + pds.length),
        endMarker := some (s.nextId + pds.length + 1),
        nextId := s.nextId + pds.length + 2,
        fitted :=
          match latLngBounds (pds.flatMap (fun pd => pd.coordinates)) with
          | some b => some b
          | none => s.fitted } := by
  unfold drawMultiplePaths
  rw [clearAllRoutes_eq h, addPaths_eq]
  dsimp only
  simp only [List.nil_append]
  have h2 : MapInv
      { s with
        mapLines := pathLayers pds.length 0 s.nextId pds,
        allRouteLayers := (pathLayers pds.length 0 s.nextId pds).map (fun l => l.id),
        routeLayer := none,
        nextId := s.nextId + pds.length } := by
    refine ⟨h.1, h.2.1, ?_, ?_, ?_⟩
    · intro l hl
      exact Or.inl (by simpa using List.mem_map_of_mem (fun l => l.id) hl)
    · intro l hl
      exact (pathLayers_id_range _ _ _ _ l hl).2
    · intro m hm
      exact Nat.lt_of_lt_of_le (h.2.2.2.2 m hm) (Nat.le_add_right _ _)
  rw [addMarkers_eq h2]
  cases hB : latLngBounds (pds.flatMap (fun pd => pd.coordinates)) <;> rfl

/-- Fact: `clearMap` is `removeOldMarkers` after `clearAllRoutes`, with both
marker handles nulled (the filters are the same; this holds for every
state by case analysis on the handles). -/
theorem clearMap_eq_removeOld (s : MapState) :
    clearMap s =
      { removeOldMarkers (clearAllRoutes s) with startMarker := none, endMarker := none } := by
  unfold clearMap removeOldMarkers
  generalize clearAllRoutes s = A
  obtain ⟨nid, rl, sm, em, arl, ml, mm, f⟩ := A
  cases sm <;> cases em <;> rfl

/-- Under the invariant, `clearMap` empties the map entirely and nulls
every handle. -/
theorem clearMap_eq {s : MapState} (h : MapInv s) :
    clearMap s =
      { s with
        mapLines := [], allRouteLayers := [], routeLayer := none,
        mapMarkers := [], startMarker := none, endMarker := none } := by
  have hA : MapInv (clearAllRoutes s) := by
    rw [clearAllRoutes_eq h]
    refine ⟨h.1, h.2.1, ?_, ?_, h.2.2.2.2⟩
    · intro l hl; simp at hl
    · intro l hl; simp at hl
  rw [clearMap_eq_removeOld, removeOldMarkers_eq hA, clearAllRoutes_eq h]

/-- Every map state the page can reach satisfies the invariant:
`drawRoute` preserves it. -/
theorem mapInv_drawRoute {s : MapState} (h : MapInv s) (path : List String) (sc ec : ℚ × ℚ) :
    MapInv (drawRoute s path sc ec) := by
  rw [drawRoute_eq h]
  refine ⟨by simp [markerIdsOfKind, handleIds], by simp [markerIdsOfKind, handleIds], ?_, ?_, ?_⟩
  · intro l hl
    simp only [List.mem_singleton] at hl
    subst hl
    exact Or.inr rfl
  · intro l hl
    simp only [List.mem_singleton] at hl
    subst hl
    simp
  · intro m hm
    rcases List.mem_cons.mp hm with rfl | hm'
    · simp
    · rcases List.mem_cons.mp hm' with rfl | hm''
      · simp
      · simp at hm''

/-- Fact: `drawMultiplePaths` preserves the invariant. -/
theorem mapInv_drawMultiplePaths {s : MapState} (h : MapInv s) (pds : List PathData)
    (sc ec : ℚ × ℚ) : MapInv (drawMultiplePaths s pds sc ec) := by
  rw [drawMultiplePaths_eq h]
  refine ⟨by simp [markerIdsOfKind, handleIds], by simp [markerIdsOfKind, handleIds], ?_, ?_, ?_⟩
  · intro l hl
    exact Or.inl (by simpa using List.mem_map_of_mem (fun l => l.id) hl)
  · intro l hl
    have := (pathLayers_id_range _ _ _ _ l hl).2
    simp only []
    omega
  · intro m hm
    rcases List.mem_cons.mp hm with rfl | hm'
    · simp
    · rcases List.mem_cons.mp hm' with rfl | hm''
      · simp
      · simp at hm''

/-- Fact: `clearMap` preserves the invariant. -/
theorem mapInv_clearMap {s : MapState} (h : MapInv s) : MapInv (clearMap s) := by
  rw [clearMap_eq h]
  refine ⟨by simp [markerIdsOfKind, handleIds], by simp [markerIdsOfKind, handleIds], ?_, ?_, ?_⟩
  · intro l hl; simp at hl
  · intro l hl; simp at hl
  · intro m hm; simp at hm

/-- The initial map state satisfies the invariant. -/
theorem mapInv_init : MapInv initMapState := by
  refine ⟨rfl, rfl, ?_, ?_, ?_⟩ <;> intro x hx <;> simp [initMapState] at hx

/-- Every sequence of map operations from an invariant state lands in an
invariant state. -/
theorem mapInv_runMapOps (ops : List MapOp) :
    ∀ {s : MapState}, MapInv s → MapInv (runMapOps s ops) := by
  induction ops with
  | nil => intro s h; exact h
  | cons op ops ih =>
      intro s h
      have h1 : MapInv (applyMapOp s op) := by
        cases op with
        | route path sc ec => exact mapInv_drawRoute h path sc ec
        | multi pds sc ec => exact mapInv_drawMultiplePaths h pds sc ec
        | clear => exact mapInv_clearMap h
      exact ih h1

/-- Fact: `qmin` is a lower bound of its first argument. -/
theorem qmin_le_left (a b : ℚ) : qmin a b ≤ a := by
  unfold qmin; split
  · exact le_refl a
  · exact le_of_lt (lt_of_not_le (by assumption))

/-- Fact: `qmin` is a lower bound of its second argument. -/
theorem qmin_le_right (a b : ℚ) : qmin a b ≤ b := by
  unfold qmin; split
  · assumption
  · exact le_refl b

/-- Fact: `qmax` is an upper bound of its first argument. -/
theorem le_qmax_left (a b : ℚ) : a ≤ qmax a b := by
  unfold qmax; split
  · assumption
  · exact le_refl a

/-- Fact: `qmax` is an upper bound of its second argument. -/
theorem le_qmax_right (a b : ℚ) : b ≤ qmax a b := by
  unfold qmax; split
  · exact le_refl b
  · exact le_of_lt (lt_of_not_le (by assumption))

/-- Extending a bounds rectangle covers the new point. -/
theorem extendPt_covers_self (b : Bounds) (q : ℚ × ℚ) : (b.extendPt q).covers q := by
  exact ⟨qmin_le_right _ _, le_qmax_right _ _, qmin_le_right _ _, le_qmax_right _ _⟩

/-- Extending a bounds rectangle keeps covering previous points. -/
theorem extendPt_covers_mono {b : Bounds} {p : ℚ × ℚ} (h : b.covers p) (q : ℚ × ℚ) :
    (b.extendPt q).covers p := by
  obtain ⟨h1, h2, h3, h4⟩ := h
  exact ⟨le_trans (qmin_le_left _ _) h1, le_trans h2 (le_qmax_left _ _),
    le_trans (qmin_le_left _ _) h3, le_trans h4 (le_qmax_left _ _)⟩

/-- The fold of `extendPt` covers the seed rectangle's points and every
folded point. -/
theorem foldl_extendPt_covers :
    ∀ (ps : List (ℚ × ℚ)) (b : Bounds) (p : ℚ × ℚ), b.covers p ∨ p ∈ ps →
      (ps.foldl Bounds.extendPt b).covers p := by
  intro ps
  induction ps with
  | nil => intro b p h; simpa using h.resolve_right (by simp)
  | cons q ps ih =>
      intro b p h
      simp only [List.foldl_cons]
      rcases h with hc | hm
      · exact ih _ _ (Or.inl (extendPt_covers_mono hc q))
      · rcases List.mem_cons.mp hm with rfl | hm'
        · exact ih _ _ (Or.inl (extendPt_covers_self b p))
        · exact ih _ _ (Or.inr hm')

/-- Fact: `latLngBounds` of a list covering `p` yields a rectangle covering `p`. -/
theorem latLngBounds_covers {ps : List (ℚ × ℚ)} {p : ℚ × ℚ} (h : p ∈ ps) :
    ∃ b, latLngBounds ps = some b ∧ b.covers p := by
  cases ps with
  | nil => simp at h
  | cons q ps =>
      refine ⟨_, rfl, ?_⟩
      rcases List.mem_cons.mp h with rfl | hm
      · exact foldl_extendPt_covers ps _ p (Or.inl ⟨le_refl _, le_refl _, le_refl _, le_refl _⟩)
      · exact foldl_extendPt_covers ps _ p (Or.inr hm)

/-- Fact: `setStatus` touches only the status line. -/
theorem setStatus_pending (a : AppState) (m t : String) :
    (setStatus a m t).pending = a.pending := rfl

/-- Fact: `hideLoading` touches only the button flag. -/
theorem hideLoading_pending (a : AppState) : (hideLoading a).pending = a.pending := rfl

/-- Fact: `updateInfoPanel` never touches the pending queue. -/
theorem updateInfoPanel_pending (a : AppState) (d : RouteData) (alg : String) :
    (updateInfoPanel a d alg).pending = a.pending := by
  unfold updateInfoPanel
  cases d.distance_km <;> cases d.distance <;> cases d.path <;> cases d.paths <;>
    dsimp only <;> first | rfl | (split <;> rfl)

/-- Fact: `updateInfoPanel` never touches the button flag. -/
theorem updateInfoPanel_btn (a : AppState) (d : RouteData) (alg : String) :
    (updateInfoPanel a d alg).btnDisabled = a.btnDisabled := by
  unfold updateInfoPanel
  cases d.distance_km <;> cases d.distance <;> cases d.path <;> cases d.paths <;>
    dsimp only <;> first | rfl | (split <;> rfl)

/-- Fact: `updateInfoPanel` never touches the map surface. -/
theorem updateInfoPanel_map (a : AppState) (d : RouteData) (alg : String) :
    (updateInfoPanel a d alg).map = a.map := by
  unfold updateInfoPanel
  cases d.distance_km <;> cases d.distance <;> cases d.path <;> cases d.paths <;>
    dsimp only <;> first | rfl | (split <;> rfl)

/-- The response-handling suffix never touches the pending queue. -/
theorem respondCore_pending (a : AppState) (r : PendingReq) (data : Option RouteData) :
    (respondCore a r data).pending = a.pending := by
  unfold respondCore
  cases data with
  | none => rfl
  | some d =>
      dsimp only
      split
      · cases d.paths with
        | none => rfl
        | some ps =>
            dsimp only
            split
            · rfl
            · split
              · simp [hideLoading_pending, updateInfoPanel_pending, setStatus]
              · simp [hideLoading_pending, updateInfoPanel_pending, setStatus]
      · split
        · cases d.path with
          | none => rfl
          | some p =>
              dsimp only
              split
              · rfl
              · simp [updateInfoPanel_pending, setStatus]
        · rfl

/-- Settling always leaves the button enabled (`finally hideLoading`). -/
theorem settleReq_btn (a : AppState) (r : PendingReq) (o : ReqOutcome) :
    (settleReq a r o).btnDisabled = false := rfl

/-- Settling never touches the pending queue. -/
theorem settleReq_pending (a : AppState) (r : PendingReq) (o : ReqOutcome) :
    (settleReq a r o).pending = a.pending := by
  unfold settleReq
  cases o with
  | failure msg => rfl
  | success data => simp only [hideLoading_pending, respondCore_pending]

/-- The click handler never touches the pending queue. -/
theorem handleMapClick_pending (a : AppState) (lat lon : ℚ) :
    (handleMapClick a lat lon).pending = a.pending := by
  unfold handleMapClick setStatus; split <;> rfl

/-- The click handler never touches the button flag. -/
theorem handleMapClick_btn (a : AppState) (lat lon : ℚ) :
    (handleMapClick a lat lon).btnDisabled = a.btnDisabled := by
  unfold handleMapClick setStatus; split <;> rfl

/-- The clear action never touches the pending queue. -/
theorem clearAll_pending (a : AppState) : (clearAll a).pending = a.pending := rfl

/-- The clear action never touches the button flag. -/
theorem clearAll_btn (a : AppState) : (clearAll a).btnDisabled = a.btnDisabled := rfl

/-- Every event other than the Enter keypress preserves the in-flight
bookkeeping invariant. -/
theorem flightInv_step {a : AppState} (h : FlightInv a) :
    ∀ e : UiEvent, e ≠ .enterKey → FlightInv (stepApp a e) := by
  intro e he
  cases e with
  | mapClick lat lon =>
      show FlightInv (handleMapClick a lat lon)
      refine ⟨by rw [handleMapClick_pending]; exact h.1, ?_⟩
      intro hne
      rw [handleMapClick_btn]
      exact h.2 (by rwa [handleMapClick_pending] at hne)
  | findClick =>
      show FlightInv (if a.btnDisabled then a else startFindRoute a)
      split
      · exact h
      · next hbtn =>
        have hpe : a.pending = [] := by
          by_contra hne
          exact hbtn (h.2 hne)
        show FlightInv (startFindRoute a)
        unfold startFindRoute
        split
        · refine ⟨?_, fun _ => ?_⟩
          · simp [showLoading, setStatus, hpe]
          · simp [showLoading, setStatus]
        · refine ⟨by simp [setStatus, hpe], fun hne => ?_⟩
          exact absurd (show (setStatus a "❌ Координат зөв оруулна уу!" "error").pending = [] by
            simp [setStatus, hpe]) hne
  | enterKey => exact absurd rfl he
  | clearClick =>
      show FlightInv (clearAll a)
      refine ⟨by rw [clearAll_pending]; exact h.1, ?_⟩
      intro hne
      rw [clearAll_btn]
      exact h.2 (by rwa [clearAll_pending] at hne)
  | settle o =>
      show FlightInv
        (match a.pending with
         | [] => a
         | r :: rest => settleReq { a with pending := rest } r o)
      cases hp : a.pending with
      | nil => exact h
      | cons r rest =>
          have hrest : rest = [] := by
            have h1 := h.1
            rw [hp] at h1
            simpa [List.length_eq_zero] using Nat.le_of_succ_le_succ h1
          refine ⟨?_, ?_⟩
          · rw [settleReq_pending]
            simp [hrest]
          · intro hne
            rw [settleReq_pending] at hne
            exact absurd (show ({ a with pending := rest } : AppState).pending = [] from hrest) hne

/-- The flight invariant holds along every Enter-free event sequence. -/
theorem flightInv_run (evs : List UiEvent) :
    ∀ a : AppState, FlightInv a → (∀ e ∈ evs, e ≠ UiEvent.enterKey) →
      FlightInv (runEvents a evs) := by
  induction evs with
  | nil => intro a h _; exact h
  | cons e evs ih =>
      intro a h hall
      exact ih _ (flightInv_step h e (hall e (List.mem_cons_self e evs)))
        (fun e' he' => hall e' (List.mem_cons_of_mem e he'))

/-- The initial page state satisfies the flight invariant. -/
theorem flightInv_init : FlightInv initAppState :=
  ⟨Nat.zero_le 1, fun hne => absurd rfl hne⟩

/-! Claim theorems. -/

/-- C1, counterexample: the claim asserts that decoding any malformed
node-identifier string is a decode failure, "never a silently produced
coordinate pair".  The spec-worded decoder indeed fails on `"abc"`, but
the code's decoder (`drawRoute`, `map.js` lines 33–36) has no failure
outcome at all: on `"abc"` it silently produces the pair
`(NaN, undefined)` and hands it on to the polyline. -/
theorem C1_counterexample :
    decodeNodeIdSpec "abc" = none ∧ decodeNodeId "abc" = (JNum.nan, JNum.undef) := by
  decide

/-- C1, amended: decoding `"47.9210_106.9270"` yields
`(47.9210, 106.9270)` (and the spec-worded decoder agrees there); but
decoding a string without exactly one separator or with non-numeric
components is not a decode failure — the decoder is total and silently
produces a pair whose components may be `NaN`, `undefined`, `0` (for an
empty component) or silently drop surplus components. -/
theorem C1_amended :
    decodeNodeId "47.9210_106.9270" =
      (JNum.num (Rat.divInt 479210 10000), JNum.num (Rat.divInt 1069270 10000)) ∧
    decodeNodeIdSpec "47.9210_106.9270" =
      some (Rat.divInt 479210 10000, Rat.divInt 1069270 10000) ∧
    decodeNodeId "abc" = (JNum.nan, JNum.undef) ∧
    decodeNodeId "1_2_3" = (JNum.num 1, JNum.num 2) ∧
    decodeNodeId "x_y" = (JNum.nan, JNum.nan) ∧
    decodeNodeId "" = (JNum.num 0, JNum.undef) ∧
    decodeNodeIdSpec "1_2_3" = none ∧ decodeNodeIdSpec "" = none := by
  decide

/-- C9: after every sequence of `drawRoute`, `drawMultiplePaths` and
`clearMap` operations from the initial map state, at most one start marker
and at most one end marker are on the map. -/
theorem C9_marker_invariant (ops : List MapOp) :
    ((runMapOps initMapState ops).mapMarkers.filter
        (fun m => m.kind = MarkerKind.start)).length ≤ 1 ∧
    ((runMapOps initMapState ops).mapMarkers.filter
        (fun m => m.kind = MarkerKind.finish)).length ≤ 1 := by
  have h := mapInv_runMapOps ops mapInv_init
  constructor
  · have hlen :
        ((runMapOps initMapState ops).mapMarkers.filter
          (fun m => m.kind = MarkerKind.start)).length =
        (handleIds (runMapOps initMapState ops).startMarker).length := by
      rw [← h.1]; simp [markerIdsOfKind]
    rw [hlen]
    cases (runMapOps initMapState ops).startMarker <;> simp [handleIds]
  · have hlen :
        ((runMapOps initMapState ops).mapMarkers.filter
          (fun m => m.kind = MarkerKind.finish)).length =
        (handleIds (runMapOps initMapState ops).endMarker).length := by
      rw [← h.2.1]; simp [markerIdsOfKind]
    rw [hlen]
    cases (runMapOps initMapState ops).endMarker <;> simp [handleIds]

/-- C8: the explicit clear action disposes all route overlays and both
markers and hides the results summary, but leaves the click mode and all
four coordinate input fields unchanged. -/
theorem C8_clear_frame (a : AppState) (h : MapInv a.map) :
    (clearAll a).map.mapLines = [] ∧
    (clearAll a).map.mapMarkers = [] ∧
    (clearAll a).map.startMarker = none ∧
    (clearAll a).map.endMarker = none ∧
    (clearAll a).infoPanelShown = false ∧
    (clearAll a).clickMode = a.clickMode ∧
    (clearAll a).startLat = a.startLat ∧
    (clearAll a).startLon = a.startLon ∧
    (clearAll a).endLat = a.endLat ∧
    (clearAll a).endLon = a.endLon := by
  refine ⟨?_, ?_, ?_, ?_, rfl, rfl, rfl, rfl, rfl, rfl⟩ <;>
    simp [clearAll, setStatus, clearMap_eq h]

/-- C8 witness at the initial page state. -/
theorem C8_witness :
    MapInv initAppState.map ∧
    ((clearAll initAppState).map.mapLines = [] ∧
     (clearAll initAppState).map.mapMarkers = [] ∧
     (clearAll initAppState).map.startMarker = none ∧
     (clearAll initAppState).map.endMarker = none ∧
     (clearAll initAppState).infoPanelShown = false ∧
     (clearAll initAppState).clickMode = initAppState.clickMode ∧
     (clearAll initAppState).startLat = initAppState.startLat ∧
     (clearAll initAppState).startLon = initAppState.startLon ∧
     (clearAll initAppState).endLat = initAppState.endLat ∧
     (clearAll initAppState).endLon = initAppState.endLon) :=
  ⟨by decide, C8_clear_frame initAppState (by decide)⟩

/-- After clearing all routes and drawing the new polyline, the state is
still well formed (needed to reason about the marker swap that follows). -/
theorem mapInv_midRoute {s : MapState} (h : MapInv s) (path : List String) :
    MapInv (drawRoutePolylineStep (clearAllRoutes s) path) := by
  rw [clearAllRoutes_eq h]
  refine ⟨h.1, h.2.1, ?_, ?_, ?_⟩
  · intro l hl
    simp only [drawRoutePolylineStep, List.nil_append, List.mem_singleton] at hl
    subst hl
    exact Or.inr rfl
  · intro l hl
    simp only [drawRoutePolylineStep, List.nil_append, List.mem_singleton] at hl
    subst hl
    simp [drawRoutePolylineStep]
  · intro m hm
    exact Nat.lt_succ_of_lt (h.2.2.2.2 m hm)

/-- C4, counterexample: the claim asserts every overlay of the previous
render is disposed before the new overlays exist.  Running `drawRoute` a
second time from a state holding one completed render (line 0, markers 1
and 2), the moment the new polyline (identity 3) is added to the map —
after `clearAllRoutes` but before `addMarkers` runs — the previous
render's markers 1 and 2 are still on the map: disposal of the old markers
happens only after the new line exists. -/
theorem C4_counterexample :
    renderedOnce.mapMarkers.map (fun m => m.id) = [1, 2] ∧
    (drawRoutePolylineStep (clearAllRoutes renderedOnce)
        ["47.9300_106.9300"]).mapLines.map (fun l => l.id) = [3] ∧
    (drawRoutePolylineStep (clearAllRoutes renderedOnce)
        ["47.9300_106.9300"]).mapMarkers.map (fun m => m.id) = [1, 2] := by
  decide

/-- C4, amended: a `drawRoute` render from any well-formed state leaves
exactly one line through the decoded coordinates in sequence and exactly
two markers (one start, one end); no overlay of the previous render
survives; the previous route lines are disposed before the new line
exists, and the previous markers are disposed before the new markers are
placed (though after the new line is already on the map). -/
theorem C4_amended (s : MapState) (path : List String) (sc ec : ℚ × ℚ)
    (hInv : MapInv s) (hne : path ≠ []) :
    ((drawRoute s path sc ec).mapLines.map (fun l => l.coords) =
      [path.map decodeNodeId]) ∧
    ((drawRoute s path sc ec).mapMarkers.map (fun m => (m.kind, m.pos)) =
      [(MarkerKind.start, sc), (MarkerKind.finish, ec)]) ∧
    (∀ l ∈ s.mapLines, ∀ l' ∈ (drawRoute s path sc ec).mapLines, l.id ≠ l'.id) ∧
    (∀ m ∈ s.mapMarkers, ∀ m' ∈ (drawRoute s path sc ec).mapMarkers, m.id ≠ m'.id) ∧
    (clearAllRoutes s).mapLines = [] ∧
    (removeOldMarkers (drawRoutePolylineStep (clearAllRoutes s) path)).mapMarkers = [] ∧
    (∀ (a : AppState) (r : PendingReq) (d : RouteData),
      (r.algorithm = "bfs" ∨ r.algorithm = "dijkstra") → d.path = some path →
      (settleReq a r (ReqOutcome.success (some d))).map =
        drawRoute a.map path (r.lat1, r.lon1) (r.lat2, r.lon2)) := by
  have hfl := hInv.2.2.2.1
  have hfm := hInv.2.2.2.2
  refine ⟨?_, ?_, ?_, ?_, ?_, ?_, ?_⟩
  · rw [drawRoute_eq hInv]; rfl
  · rw [drawRoute_eq hInv]; rfl
  · intro l hl l' hl'
    rw [drawRoute_eq hInv] at hl'
    simp only [List.mem_singleton] at hl'
    subst hl'
    exact Nat.ne_of_lt (hfl l hl)
  · intro m hm m' hm'
    rw [drawRoute_eq hInv] at hm'
    have hlt := hfm m hm
    rcases List.mem_cons.mp hm' with rfl | hm''
    · simp only []
      omega
    · rcases List.mem_cons.mp hm'' with rfl | hm3
      · simp only []
        omega
      · simp at hm3
  · rw [clearAllRoutes_eq hInv]
  · rw [removeOldMarkers_eq (mapInv_midRoute hInv path)]
  · intro a r d halg hp
    unfold settleReq respondCore
    dsimp only
    have hnd : ¬ r.algorithm = "dfs" := by
      rcases halg with h1 | h1 <;> rw [h1] <;> decide
    rw [if_neg hnd, if_pos halg, hp]
    dsimp only
    rw [if_neg (by simpa [List.length_eq_zero] using hne)]
    simp [hideLoading, updateInfoPanel_map, setStatus]

/-- C4 witness: a concrete second render from a state holding one
completed render. -/
theorem C4_witness :
    MapInv renderedOnce ∧ (["1_1", "2_2"] : List String) ≠ [] ∧
    (((drawRoute renderedOnce ["1_1", "2_2"] (1, 1) (2, 2)).mapLines.map
        (fun l => l.coords) = [(["1_1", "2_2"] : List String).map decodeNodeId]) ∧
     ((drawRoute renderedOnce ["1_1", "2_2"] (1, 1) (2, 2)).mapMarkers.map
        (fun m => (m.kind, m.pos)) =
        [(MarkerKind.start, ((1 : ℚ), (1 : ℚ))), (MarkerKind.finish, ((2 : ℚ), (2 : ℚ)))]) ∧
     (∀ l ∈ renderedOnce.mapLines,
        ∀ l' ∈ (drawRoute renderedOnce ["1_1", "2_2"] (1, 1) (2, 2)).mapLines, l.id ≠ l'.id) ∧
     (∀ m ∈ renderedOnce.mapMarkers,
        ∀ m' ∈ (drawRoute renderedOnce ["1_1", "2_2"] (1, 1) (2, 2)).mapMarkers, m.id ≠ m'.id) ∧
     (clearAllRoutes renderedOnce).mapLines = [] ∧
     (removeOldMarkers
        (drawRoutePolylineStep (clearAllRoutes renderedOnce) ["1_1", "2_2"])).mapMarkers = []) :=
  ⟨by decide, by decide, by
    have happ := C4_amended renderedOnce ["1_1", "2_2"] (1, 1) (2, 2) (by decide) (by decide)
    exact ⟨happ.1, happ.2.1, happ.2.2.1, happ.2.2.2.1, happ.2.2.2.2.1, happ.2.2.2.2.2.1⟩⟩

/-- The ten palette entries are pairwise distinct. -/
theorem colors_getD_inj :
    ∀ i < 10, ∀ j < 10, i ≠ j → colors.getD i "" ≠ colors.getD j "" := by
  decide

/-- C3, counterexample: the claim asserts that colours of distinct lines
are distinct, but the palette has ten entries cycled by index, so with
eleven path records the lines at indices 0 and 10 are distinct lines
carrying the same colour. -/
theorem C3_counterexample :
    1 < pds11.length ∧
    (drawMultiplePaths initMapState pds11 (0, 0) (1, 1)).mapLines.length = 11 ∧
    ((drawMultiplePaths initMapState pds11 (0, 0) (1, 1)).mapLines.getD 0 dummyLine).id ≠
      ((drawMultiplePaths initMapState pds11 (0, 0) (1, 1)).mapLines.getD 10 dummyLine).id ∧
    ((drawMultiplePaths initMapState pds11 (0, 0) (1, 1)).mapLines.getD 0 dummyLine).color =
      ((drawMultiplePaths initMapState pds11 (0, 0) (1, 1)).mapLines.getD 10 dummyLine).color := by
  decide

/-- C3, amended: a `drawMultiplePaths` render of k > 1 path records from
any well-formed state renders exactly k lines; the line at index 0 has
strictly greater stroke weight and strictly greater opacity than every
other line; each line's colour is `palette[index mod 10]`; colours of
distinct lines are distinct whenever k is at most the palette length
(lines whose indices differ by a multiple of ten share a colour); and the
fitted viewport bounds contain every coordinate of every path. -/
theorem C3_amended (s : MapState) (pds : List PathData) (sc ec : ℚ × ℚ)
    (hInv : MapInv s) (hk : 1 < pds.length) :
    (drawMultiplePaths s pds sc ec).mapLines.length = pds.length ∧
    (∀ j, j < pds.length →
      ((drawMultiplePaths s pds sc ec).mapLines.getD j dummyLine).color =
        colors.getD (j % colors.length) "") ∧
    (∀ j, j < pds.length → j ≠ 0 →
      ((drawMultiplePaths s pds sc ec).mapLines.getD j dummyLine).weight <
        ((drawMultiplePaths s pds sc ec).mapLines.getD 0 dummyLine).weight ∧
      ((drawMultiplePaths s pds sc ec).mapLines.getD j dummyLine).opacity <
        ((drawMultiplePaths s pds sc ec).mapLines.getD 0 dummyLine).opacity) ∧
    (pds.length ≤ colors.length →
      ∀ i j, i < pds.length → j < pds.length → i ≠ j →
        ((drawMultiplePaths s pds sc ec).mapLines.getD i dummyLine).color ≠
          ((drawMultiplePaths s pds sc ec).mapLines.getD j dummyLine).color) ∧
    (∀ p ∈ pds.flatMap (fun pd => pd.coordinates),
      ∃ b, (drawMultiplePaths s pds sc ec).fitted = some b ∧ b.covers p) ∧
    (∀ (a : AppState) (r : PendingReq) (d : RouteData) (ps : List (List String)),
      r.algorithm = "dfs" → d.paths = some ps → ps ≠ [] →
      d.all_paths_data = some pds →
      (settleReq a r (ReqOutcome.success (some d))).map =
        drawMultiplePaths a.map pds (r.lat1, r.lon1) (r.lat2, r.lon2)) := by
  have hEq := drawMultiplePaths_eq hInv pds sc ec
  have hlen0 : (drawMultiplePaths s pds sc ec).mapLines.length = pds.length := by
    rw [hEq]; exact pathLayers_length _ _ _ _
  have hget : ∀ j, j < pds.length →
      (drawMultiplePaths s pds sc ec).mapLines.getD j dummyLine =
        multiPathLayer pds.length j (s.nextId + j) (pds.getD j dummyPathData) := by
    intro j hj
    rw [hEq]
    have := pathLayers_getD pds.length pds 0 s.nextId j hj
    simpa using this
  refine ⟨hlen0, ?_, ?_, ?_, ?_, ?_⟩
  · intro j hj
    rw [hget j hj]
    rfl
  · intro j hj hj0
    rw [hget j hj, hget 0 (by omega)]
    constructor
    · simp [multiPathLayer, hj0]
    · simp only [multiPathLayer, if_neg hj0]
      decide
  · intro hle i j hi hj hij
    rw [hget i hi, hget j hj]
    show colors.getD (i % colors.length) "" ≠ colors.getD (j % colors.length) ""
    have hcl : colors.length = 10 := rfl
    rw [hcl, Nat.mod_eq_of_lt (by omega), Nat.mod_eq_of_lt (by omega)]
    exact colors_getD_inj i (by omega) j (by omega) hij
  · intro p hp
    obtain ⟨b, hb, hcov⟩ := latLngBounds_covers hp
    refine ⟨b, ?_, hcov⟩
    rw [hEq]
    simp only []
    rw [hb]
  · intro a r d ps halg hps hpne hapd
    unfold settleReq respondCore
    dsimp only
    rw [if_pos halg, hps]
    dsimp only
    rw [if_neg (by simpa [List.length_eq_zero] using hpne), hapd]
    simp only [Option.getD_some]
    rw [if_pos hk]
    simp [hideLoading, updateInfoPanel_map, setStatus]

/-- C3 witness: a concrete two-path render from the initial map state. -/
theorem C3_witness :
    MapInv initMapState ∧
    1 < ([⟨[((1 : ℚ), (2 : ℚ))], 1, 2⟩, ⟨[((3 : ℚ), (4 : ℚ))], 2, 2⟩] : List PathData).length ∧
    ((drawMultiplePaths initMapState
        [⟨[(1, 2)], 1, 2⟩, ⟨[(3, 4)], 2, 2⟩] (0, 0) (1, 1)).mapLines.length =
      ([⟨[((1 : ℚ), (2 : ℚ))], 1, 2⟩, ⟨[((3 : ℚ), (4 : ℚ))], 2, 2⟩] : List PathData).length ∧
     (∀ j, j < ([⟨[((1 : ℚ), (2 : ℚ))], 1, 2⟩, ⟨[((3 : ℚ), (4 : ℚ))], 2, 2⟩] : List PathData).length →
       ((drawMultiplePaths initMapState
          [⟨[(1, 2)], 1, 2⟩, ⟨[(3, 4)], 2, 2⟩] (0, 0) (1, 1)).mapLines.getD j dummyLine).color =
         colors.getD (j % colors.length) "") ∧
     (∀ j, j < ([⟨[((1 : ℚ), (2 : ℚ))], 1, 2⟩, ⟨[((3 : ℚ), (4 : ℚ))], 2, 2⟩] : List PathData).length → j ≠ 0 →
       ((drawMultiplePaths initMapState
          [⟨[(1, 2)], 1, 2⟩, ⟨[(3, 4)], 2, 2⟩] (0, 0) (1, 1)).mapLines.getD j dummyLine).weight <
         ((drawMultiplePaths initMapState
          [⟨[(1, 2)], 1, 2⟩, ⟨[(3, 4)], 2, 2⟩] (0, 0) (1, 1)).mapLines.getD 0 dummyLine).weight ∧
       ((drawMultiplePaths initMapState
          [⟨[(1, 2)], 1, 2⟩, ⟨[(3, 4)], 2, 2⟩] (0, 0) (1, 1)).mapLines.getD j dummyLine).opacity <
         ((drawMultiplePaths initMapState
          [⟨[(1, 2)], 1, 2⟩, ⟨[(3, 4)], 2, 2⟩] (0, 0) (1, 1)).mapLines.getD 0 dummyLine).opacity) ∧
     (([⟨[((1 : ℚ), (2 : ℚ))], 1, 2⟩, ⟨[((3 : ℚ), (4 : ℚ))], 2, 2⟩] : List PathData).length ≤ colors.length →
       ∀ i j, i < ([⟨[((1 : ℚ), (2 : ℚ))], 1, 2⟩, ⟨[((3 : ℚ), (4 : ℚ))], 2, 2⟩] : List PathData).length →
         j < ([⟨[((1 : ℚ), (2 : ℚ))], 1, 2⟩, ⟨[((3 : ℚ), (4 : ℚ))], 2, 2⟩] : List PathData).length → i ≠ j →
         ((drawMultiplePaths initMapState
            [⟨[(1, 2)], 1, 2⟩, ⟨[(3, 4)], 2, 2⟩] (0, 0) (1, 1)).mapLines.getD i dummyLine).color ≠
           ((drawMultiplePaths initMapState
            [⟨[(1, 2)], 1, 2⟩, ⟨[(3, 4)], 2, 2⟩] (0, 0) (1, 1)).mapLines.getD j dummyLine).color) ∧
     (∀ p ∈ ([⟨[((1 : ℚ), (2 : ℚ))], 1, 2⟩, ⟨[((3 : ℚ), (4 : ℚ))], 2, 2⟩] : List PathData).flatMap
          (fun pd => pd.coordinates),
       ∃ b, (drawMultiplePaths initMapState
          [⟨[(1, 2)], 1, 2⟩, ⟨[(3, 4)], 2, 2⟩] (0, 0) (1, 1)).fitted = some b ∧ b.covers p)) :=
  ⟨by decide, by decide, by
    have happ := C3_amended initMapState [⟨[(1, 2)], 1, 2⟩, ⟨[(3, 4)], 2, 2⟩] (0, 0) (1, 1)
      (by decide) (by decide)
    exact ⟨happ.1, happ.2.1, happ.2.2.1, happ.2.2.2.1, happ.2.2.2.2.1⟩⟩

/-- C2, counterexample: the claim asserts every entry point that can start
a route search is disabled while a request is in flight, so no two
`findRoute` executions overlap.  But the document-level Enter listener
(`app.js` lines 176–180) calls `findRoute()` without consulting the
button's `disabled` flag: after two clicks populate the inputs, two Enter
keypresses leave two `findRoute` executions suspended at their `await`
simultaneously. -/
theorem C2_counterexample :
    (runEvents initAppState
        [UiEvent.mapClick 47 106, UiEvent.mapClick 48 107,
         UiEvent.enterKey, UiEvent.enterKey]).pending.length = 2 := by
  decide

/-- C2, amended: the find-route button is disabled from the moment a
request is issued until it settles, and settling re-enables it
unconditionally, so requests started through the button never overlap
(along any Enter-free event sequence at most one `findRoute` is ever
suspended); a click on the disabled button starts nothing.  The Enter-key
entry point, however, is not gated and can start overlapping executions. -/
theorem C2_amended :
    (∀ evs : List UiEvent, (∀ e ∈ evs, e ≠ UiEvent.enterKey) →
      (runEvents initAppState evs).pending.length ≤ 1) ∧
    (∀ (a : AppState) (r : PendingReq) (rest : List PendingReq) (o : ReqOutcome),
      a.pending = r :: rest → (stepApp a (UiEvent.settle o)).btnDisabled = false) ∧
    (∀ a : AppState, a.btnDisabled = true → stepApp a UiEvent.findClick = a) := by
  refine ⟨?_, ?_, ?_⟩
  · intro evs hall
    exact (flightInv_run evs initAppState flightInv_init hall).1
  · intro a r rest o hp
    show (match a.pending with
          | [] => a
          | r :: rest => settleReq { a with pending := rest } r o).btnDisabled = false
    rw [hp]
    rfl
  · intro a hbtn
    show (if a.btnDisabled then a else startFindRoute a) = a
    rw [hbtn]
    rfl

/-- C2 witness: concrete Enter-free traces and a concrete settle. -/
theorem C2_witness :
    ((∀ e ∈ ([UiEvent.mapClick 47 106, UiEvent.findClick, UiEvent.findClick,
        UiEvent.settle (ReqOutcome.failure "x"), UiEvent.clearClick] : List UiEvent),
        e ≠ UiEvent.enterKey) ∧
      (runEvents initAppState
        [UiEvent.mapClick 47 106, UiEvent.findClick, UiEvent.findClick,
         UiEvent.settle (ReqOutcome.failure "x"), UiEvent.clearClick]).pending.length ≤ 1) ∧
    (({ initAppState with pending := [c7Req] } : AppState).pending = c7Req :: [] ∧
      (stepApp { initAppState with pending := [c7Req] }
        (UiEvent.settle (ReqOutcome.failure "x"))).btnDisabled = false) ∧
    (({ initAppState with btnDisabled := true } : AppState).btnDisabled = true ∧
      stepApp { initAppState with btnDisabled := true } UiEvent.findClick =
        { initAppState with btnDisabled := true }) :=
  ⟨⟨by decide, C2_amended.1 _ (by decide)⟩,
   ⟨rfl, C2_amended.2.1 _ c7Req [] (ReqOutcome.failure "x") rfl⟩,
   ⟨rfl, C2_amended.2.2 _ rfl⟩⟩

/-- C5: for every empty response (bfs/dijkstra with a missing or empty
path; dfs with a missing or empty paths array) the controller reports
"no route found" (`⚠️ Зам олдсонгүй`) as an error and performs no render:
the map surface is left exactly as it was. -/
theorem C5_empty_response (a : AppState) (r : PendingReq) (d : RouteData)
    (h : (r.algorithm = "dfs" ∧ (d.paths = none ∨ d.paths = some [])) ∨
         ((r.algorithm = "bfs" ∨ r.algorithm = "dijkstra") ∧
           (d.path = none ∨ d.path = some []))) :
    (settleReq a r (ReqOutcome.success (some d))).statusMsg = "⚠️ Зам олдсонгүй" ∧
    (settleReq a r (ReqOutcome.success (some d))).statusType = "error" ∧
    (settleReq a r (ReqOutcome.success (some d))).map = a.map := by
  have key : respondCore a r (some d) = setStatus a "⚠️ Зам олдсонгүй" "error" := by
    unfold respondCore
    dsimp only
    rcases h with ⟨halg, hps⟩ | ⟨halg, hp⟩
    · rw [if_pos halg]
      rcases hps with h0 | h0 <;> rw [h0] <;> rfl
    · have hnd : ¬ r.algorithm = "dfs" := by
        rcases halg with h1 | h1 <;> rw [h1] <;> decide
      rw [if_neg hnd, if_pos halg]
      rcases hp with h0 | h0 <;> rw [h0] <;> rfl
  unfold settleReq
  dsimp only
  rw [key]
  exact ⟨rfl, rfl, rfl⟩

/-- C5 witness: a dfs reply with no paths field, settled from the initial
state. -/
theorem C5_witness :
    (((⟨"dfs", 0, 0, 0, 0⟩ : PendingReq).algorithm = "dfs" ∧
       ((⟨none, none, none, none, none, "0"⟩ : RouteData).paths = none ∨
        (⟨none, none, none, none, none, "0"⟩ : RouteData).paths = some [])) ∨
     (((⟨"dfs", 0, 0, 0, 0⟩ : PendingReq).algorithm = "bfs" ∨
       (⟨"dfs", 0, 0, 0, 0⟩ : PendingReq).algorithm = "dijkstra") ∧
       ((⟨none, none, none, none, none, "0"⟩ : RouteData).path = none ∨
        (⟨none, none, none, none, none, "0"⟩ : RouteData).path = some []))) ∧
    ((settleReq initAppState ⟨"dfs", 0, 0, 0, 0⟩
        (ReqOutcome.success (some ⟨none, none, none, none, none, "0"⟩))).statusMsg =
      "⚠️ Зам олдсонгүй" ∧
     (settleReq initAppState ⟨"dfs", 0, 0, 0, 0⟩
        (ReqOutcome.success (some ⟨none, none, none, none, none, "0"⟩))).statusType = "error" ∧
     (settleReq initAppState ⟨"dfs", 0, 0, 0, 0⟩
        (ReqOutcome.success (some ⟨none, none, none, none, none, "0"⟩))).map =
      initAppState.map) :=
  ⟨by decide, C5_empty_response initAppState ⟨"dfs", 0, 0, 0, 0⟩
    ⟨none, none, none, none, none, "0"⟩ (by decide)⟩

/-- The click handler always leaves the click mode at one of the two legal
values, whatever it was before. -/
theorem handleMapClick_mode (a : AppState) (lat lon : ℚ) :
    (handleMapClick a lat lon).clickMode = "start" ∨
    (handleMapClick a lat lon).clickMode = "end" := by
  unfold handleMapClick setStatus
  split
  · exact Or.inr rfl
  · exact Or.inl rfl

/-- Along any run of map clicks from a state with a legal click mode, the
click mode stays at one of the two legal values. -/
theorem clickMode_binary (ps : List (ℚ × ℚ)) :
    ∀ a : AppState, a.clickMode = "start" ∨ a.clickMode = "end" →
      (runEvents a (ps.map clickEv)).clickMode = "start" ∨
      (runEvents a (ps.map clickEv)).clickMode = "end" := by
  induction ps with
  | nil => intro a h; exact h
  | cons p ps ih =>
      intro a _
      exact ih (handleMapClick a p.1 p.2) (handleMapClick_mode a p.1 p.2)

/-- C6: from the initial page state, accepted map clicks alternate
strictly — the first click populates the start point and flips to
awaiting-end, the second populates the end point and flips back, the
third reassigns the start point and never the end point — and along every
click run the click mode is always exactly one of the two values. -/
theorem C6_selection_alternates (p1 p2 p3 : ℚ × ℚ) :
    ((runEvents initAppState [clickEv p1]).startLat = JNum.num p1.1 ∧
     (runEvents initAppState [clickEv p1]).startLon = JNum.num p1.2 ∧
     (runEvents initAppState [clickEv p1]).clickMode = "end" ∧
     (runEvents initAppState [clickEv p1]).endLat = initAppState.endLat ∧
     (runEvents initAppState [clickEv p1]).endLon = initAppState.endLon) ∧
    ((runEvents initAppState [clickEv p1, clickEv p2]).endLat = JNum.num p2.1 ∧
     (runEvents initAppState [clickEv p1, clickEv p2]).endLon = JNum.num p2.2 ∧
     (runEvents initAppState [clickEv p1, clickEv p2]).clickMode = "start" ∧
     (runEvents initAppState [clickEv p1, clickEv p2]).startLat = JNum.num p1.1 ∧
     (runEvents initAppState [clickEv p1, clickEv p2]).startLon = JNum.num p1.2) ∧
    ((runEvents initAppState [clickEv p1, clickEv p2, clickEv p3]).startLat = JNum.num p3.1 ∧
     (runEvents initAppState [clickEv p1, clickEv p2, clickEv p3]).startLon = JNum.num p3.2 ∧
     (runEvents initAppState [clickEv p1, clickEv p2, clickEv p3]).endLat = JNum.num p2.1 ∧
     (runEvents initAppState [clickEv p1, clickEv p2, clickEv p3]).endLon = JNum.num p2.2 ∧
     (runEvents initAppState [clickEv p1, clickEv p2, clickEv p3]).clickMode = "end") ∧
    (∀ ps : List (ℚ × ℚ),
      (runEvents initAppState (ps.map clickEv)).clickMode = "start" ∨
      (runEvents initAppState (ps.map clickEv)).clickMode = "end") := by
  refine ⟨?_, ?_, ?_, ?_⟩
  · simp [runEvents, stepApp, clickEv, handleMapClick, setStatus, initAppState]
  · simp [runEvents, stepApp, clickEv, handleMapClick, setStatus, initAppState]
  · simp [runEvents, stepApp, clickEv, handleMapClick, setStatus, initAppState]
  · intro ps
    exact clickMode_binary ps initAppState (Or.inl rfl)

/-- C7: the results summary shows the distance in kilometres to two
decimal places — `distance_km` as-is, `distance` (metres) divided by 1000
— and in the spec's dijkstra scenario (two node identifiers,
`distance: 1000`) the display reads `1.00 км` with node count 2. -/
theorem C7_distance_display :
    (∀ (a : AppState) (d : RouteData) (alg : String) (q : ℚ), d.distance_km = some q →
      (updateInfoPanel a d alg).distanceText = formatFixed2 q ++ " км") ∧
    (∀ (a : AppState) (d : RouteData) (alg : String) (m : ℚ),
      d.distance_km = none → d.distance = some m →
      (updateInfoPanel a d alg).distanceText = formatFixed2 (jsDivide m 1000) ++ " км") ∧
    ((settleReq initAppState c7Req (ReqOutcome.success (some c7Data))).distanceText =
      "1.00 км" ∧
     (settleReq initAppState c7Req (ReqOutcome.success (some c7Data))).nodesText = "2") := by
  refine ⟨?_, ?_, by decide, by decide⟩
  · intro a d alg q hq
    unfold updateInfoPanel
    rw [hq]
    cases d.path <;> cases d.paths <;> dsimp only <;> first | rfl | (split <;> rfl)
  · intro a d alg m h0 hm
    unfold updateInfoPanel
    rw [h0, hm]
    cases d.path <;> cases d.paths <;> dsimp only <;> first | rfl | (split <;> rfl)

/-- C7 witness for the two universally quantified clauses, at the
scenario's own data. -/
theorem C7_witness :
    (c7Data.distance_km = none ∧ c7Data.distance = some 1000 ∧
      (updateInfoPanel initAppState c7Data "dijkstra").distanceText =
        formatFixed2 (jsDivide 1000 1000) ++ " км") ∧
    ((⟨none, none, none, some 1, none, "0"⟩ : RouteData).distance_km = some 1 ∧
      (updateInfoPanel initAppState ⟨none, none, none, some 1, none, "0"⟩ "bfs").distanceText =
        formatFixed2 1 ++ " км") :=
  ⟨⟨rfl, rfl, C7_distance_display.2.1 initAppState c7Data "dijkstra" 1000 rfl rfl⟩,
   ⟨rfl, C7_distance_display.1 initAppState ⟨none, none, none, some 1, none, "0"⟩ "bfs" 1 rfl⟩⟩

/-- C10: when a response has no `path` field but a non-empty `paths`
array (the DFS multi-path shape), the node count shown is the length of
the first path only — for the concrete two-path response with 2- and
3-node paths the summary shows `2`, not the total `5`. -/
theorem C10_node_count_first_path :
    (∀ (a : AppState) (d : RouteData) (alg : String) (ps : List (List String)),
      d.path = none → d.paths = some ps → ps ≠ [] →
      (updateInfoPanel a d alg).nodesText = toString (ps.headD []).length) ∧
    ((updateInfoPanel initAppState c10Data "dfs").nodesText = "2" ∧
     (c10Data.paths.getD []).foldl (fun acc p => acc + p.length) 0 = 5 ∧
     ("2" : String) ≠ "5") := by
  refine ⟨?_, by decide, by decide, by decide⟩
  · intro a d alg ps h0 hps hne
    unfold updateInfoPanel
    rw [h0, hps]
    dsimp only
    rw [if_pos (List.length_pos.mpr hne)]

/-- C10 witness: the universal clause at the concrete two-path response. -/
theorem C10_witness :
    c10Data.path = none ∧ c10Data.paths = some [["1_1", "2_2"], ["1_1", "3_3", "2_2"]] ∧
    ([["1_1", "2_2"], ["1_1", "3_3", "2_2"]] : List (List String)) ≠ [] ∧
    (updateInfoPanel initAppState c10Data "dfs").nodesText =
      toString (([["1_1", "2_2"], ["1_1", "3_3", "2_2"]] : List (List String)).headD []).length :=
  ⟨rfl, rfl, by decide,
    C10_node_count_first_path.1 initAppState c10Data "dfs"
      [["1_1", "2_2"], ["1_1", "3_3", "2_2"]] rfl rfl (by decide)⟩
